import Mathlib

set_option linter.unusedVariables false

/-!
Verification of the Qomo pricing engine (`src/services/pricingEngine.ts`).

The engine is a set of pure-ish functions over a per-product `DropState`:
`initDrop`, `applyView`, `releaseLock`, `applyPurchase`.  Monetary values
(JavaScript `number`s in the source) are modelled as exact rationals `ℚ`;
`roundMoney` models `Math.round((x + Number.EPSILON) * 100) / 100`
(`Math.round` rounds half toward +∞, i.e. `⌊x + 1/2⌋`; the `Number.EPSILON`
term only compensates for binary-float representation error and vanishes in
exact rational arithmetic).  Timestamps (`Date.now()` milliseconds) are `ℕ`;
the source reads the clock inside `applyView` and `applyPurchase`, which the
embedding makes explicit as a `now` argument at the exact point the source
calls `Date.now()`.  JavaScript truthiness of `string | null` and
`number | null` fields is preserved: `""` and `0` are falsy.
-/

namespace Qomo

/-- `DropConfig` from the source: immutable pricing parameters for one product. -/
structure DropConfig where
  productId : String
  name : String
  basePrice : ℚ
  viewingFee : ℚ
  priceDropShare : ℚ
  platformShare : ℚ
  supplierShareOfPlatform : ℚ
  qomoShareOfPlatform : ℚ
  minPrice : ℚ
deriving DecidableEq, Repr

/-- `DropState` from the source: the mutable per-product state. -/
structure DropState where
  productId : String
  currentPrice : ℚ
  isSold : Bool
  totalViews : ℕ
  buyerId : Option String
  soldPrice : Option ℚ
  activeViewerId : Option String
  activeViewExpiresAt : Option ℕ
  queue : List String
  totalPlatformRevenue : ℚ
  totalSupplierPlatformRevenue : ℚ
  totalQomoRevenue : ℚ
deriving DecidableEq, Repr

/-- The `status` field of `ViewEventResult`. -/
inductive ViewStatus where
  | LOCKED
  | QUEUED
  | SOLD
  | ERROR
deriving DecidableEq, Repr

/-- `ViewEventResult` from the source. -/
structure ViewEventResult where
  success : Bool
  status : ViewStatus
  expiresAt : Option ℕ
  queuePosition : Option ℕ
  dropAmount : ℚ
  newPrice : ℚ
  feeCharged : ℚ
  state : DropState
  errMsg : Option String
deriving DecidableEq, Repr

/-- `PurchaseResult` from the source. -/
structure PurchaseResult where
  success : Bool
  soldPrice : ℚ
  totalSupplierRevenue : ℚ
  totalQomoRevenue : ℚ
  state : DropState
  errMsg : Option String
deriving DecidableEq, Repr

/-- `roundMoney` from the source: round to exactly 2 decimal places.
`Math.round(x) = ⌊x + 1/2⌋` (half toward +∞).  `Rat.floor` is used so the
definition evaluates by kernel reduction; `roundMoney_def` restates it with
the mathematical floor `⌊⌋`. -/
def roundMoney (amount : ℚ) : ℚ :=
  ((amount * 100 + 1/2).floor : ℚ) / 100

/-- A monetary value already quantized to two decimals (fixed by `roundMoney`). -/
def Quantized (q : ℚ) : Prop := roundMoney q = q

/-- `LOCK_DURATION` from the source: 30000 ms. -/
def LOCK_DURATION : ℕ := 30000

/-- `initDrop` from the source. -/
def initDrop (config : DropConfig) : DropState :=
  { productId := config.productId
    currentPrice := roundMoney config.basePrice
    isSold := false
    totalViews := 0
    buyerId := none
    soldPrice := none
    activeViewerId := none
    activeViewExpiresAt := none
    queue := []
    totalPlatformRevenue := 0
    totalSupplierPlatformRevenue := 0
    totalQomoRevenue := 0 }

/-- The lock-validity test from `applyView`:
`state.activeViewerId && state.activeViewExpiresAt && state.activeViewExpiresAt > now`,
with JavaScript truthiness (`""` and `0` are falsy). -/
def lockActive (state : DropState) (now : ℕ) : Bool :=
  match state.activeViewerId, state.activeViewExpiresAt with
  | some v, some e => v ≠ "" && e ≠ 0 && now < e
  | _, _ => false

/-- `applyView` from the source.  `now` is the value the source reads via
`Date.now()` at the top of the function body. -/
def applyView (state : DropState) (config : DropConfig) (viewerId : String)
    (now : ℕ) : ViewEventResult :=
  if state.isSold then
    { success := false
      status := .SOLD
      expiresAt := none
      queuePosition := none
      dropAmount := 0
      newPrice := state.currentPrice
      feeCharged := 0
      state := state
      errMsg := some "Product is already sold." }
  else if lockActive state now then
    if state.activeViewerId = some viewerId then
      -- Holder re-poll: no charge, no change.
      { success := true
        status := .LOCKED
        expiresAt := state.activeViewExpiresAt
        queuePosition := none
        dropAmount := 0
        newPrice := state.currentPrice
        feeCharged := 0
        state := state
        errMsg := none }
    else
      -- Locked by someone else: queue the user.
      let newQueue := if state.queue.contains viewerId then state.queue
                      else state.queue ++ [viewerId]
      let newState := { state with queue := newQueue }
      { success := false
        status := .QUEUED
        expiresAt := none
        queuePosition := some (newQueue.indexOf viewerId + 1)
        dropAmount := 0
        newPrice := state.currentPrice
        feeCharged := 0
        state := newState
        errMsg := none }
  else if 0 < state.queue.length ∧ state.queue.head? ≠ some viewerId then
    -- No active lock but a non-empty queue with a different head: enqueue.
    let newQueue := if state.queue.contains viewerId then state.queue
                    else state.queue ++ [viewerId]
    let newState := { state with
                      activeViewerId := none
                      activeViewExpiresAt := none
                      queue := newQueue }
    { success := false
      status := .QUEUED
      expiresAt := none
      queuePosition := some (newQueue.indexOf viewerId + 1)
      dropAmount := 0
      newPrice := state.currentPrice
      feeCharged := 0
      state := newState
      errMsg := none }
  else
    -- Grant lock and apply drop.
    let priceDropAmount := roundMoney (config.viewingFee * config.priceDropShare)
    let platformRevenue := roundMoney (config.viewingFee * config.platformShare)
    let supplierShare := roundMoney (platformRevenue * config.supplierShareOfPlatform)
    let qomoShare := roundMoney (platformRevenue * config.qomoShareOfPlatform)
    let nextPriceRaw := state.currentPrice - priceDropAmount
    let nextPriceClamped := if nextPriceRaw < config.minPrice then config.minPrice
                            else nextPriceRaw
    let nextPrice := roundMoney nextPriceClamped
    let effectiveDrop := roundMoney (state.currentPrice - nextPrice)
    let newQueue := state.queue.filter (fun id => id ≠ viewerId)
    let newState := { state with
                      currentPrice := nextPrice
                      totalViews := state.totalViews + 1
                      totalPlatformRevenue :=
                        roundMoney (state.totalPlatformRevenue + platformRevenue)
                      totalSupplierPlatformRevenue :=
                        roundMoney (state.totalSupplierPlatformRevenue + supplierShare)
                      totalQomoRevenue :=
                        roundMoney (state.totalQomoRevenue + qomoShare)
                      activeViewerId := some viewerId
                      activeViewExpiresAt := some (now + LOCK_DURATION)
                      queue := newQueue }
    { success := true
      status := .LOCKED
      expiresAt := some (now + LOCK_DURATION)
      queuePosition := none
      dropAmount := effectiveDrop
      newPrice := nextPrice
      feeCharged := config.viewingFee
      state := newState
      errMsg := none }

/-- `releaseLock` from the source. -/
def releaseLock (state : DropState) (viewerId : String) : DropState :=
  if state.activeViewerId = some viewerId then
    { state with activeViewerId := none, activeViewExpiresAt := none }
  else
    state

/-- The lock-ownership test from `applyPurchase`:
`state.activeViewerId && (state.activeViewerId !== buyerId && state.activeViewExpiresAt && state.activeViewExpiresAt > now)`. -/
def lockedByOther (state : DropState) (buyerId : String) (now : ℕ) : Bool :=
  match state.activeViewerId, state.activeViewExpiresAt with
  | some v, some e => v ≠ "" && v ≠ buyerId && e ≠ 0 && now < e
  | some v, none => v ≠ "" && false
  | _, _ => false

/-- `applyPurchase` from the source.  `now` is the value the source reads via
`Date.now()` before the lock-ownership check. -/
def applyPurchase (state : DropState) (config : DropConfig) (buyerId : String)
    (now : ℕ) : PurchaseResult :=
  if state.isSold then
    { success := false
      soldPrice := 0
      totalSupplierRevenue := 0
      totalQomoRevenue := 0
      state := state
      errMsg := some "Product is already sold." }
  else if lockedByOther state buyerId now then
    { success := false
      soldPrice := 0
      totalSupplierRevenue := 0
      totalQomoRevenue := 0
      state := state
      errMsg := some "Product is currently locked by another user." }
  else
    let soldPrice := state.currentPrice
    let totalSupplierRevenue := roundMoney (soldPrice + state.totalSupplierPlatformRevenue)
    let totalQomoRevenue := state.totalQomoRevenue
    let newState := { state with
                      isSold := true
                      buyerId := some buyerId
                      soldPrice := some soldPrice
                      activeViewerId := none
                      activeViewExpiresAt := none
                      queue := [] }
    { success := true
      soldPrice := soldPrice
      totalSupplierRevenue := totalSupplierRevenue
      totalQomoRevenue := totalQomoRevenue
      state := newState
      errMsg := none }

/-- One engine operation applied to a state, with an arbitrary actor and
an arbitrary clock reading. -/
inductive Step (config : DropConfig) : DropState → DropState → Prop
  | view (s : DropState) (viewerId : String) (now : ℕ) :
      Step config s (applyView s config viewerId now).state
  | release (s : DropState) (viewerId : String) :
      Step config s (releaseLock s viewerId)
  | purchase (s : DropState) (buyerId : String) (now : ℕ) :
      Step config s (applyPurchase s config buyerId now).state

/-- States reachable from `initDrop config` by engine operations. -/
inductive Reachable (config : DropConfig) : DropState → Prop
  | init : Reachable config (initDrop config)
  | step {s t : DropState} : Reachable config s → Step config s t →
      Reachable config t

/-- The example configuration from the spec's test-scenario section. -/
def exCfg : DropConfig :=
  { productId := "p1"
    name := "Example"
    basePrice := 1100
    viewingFee := 5
    priceDropShare := 0.8
    platformShare := 0.2
    supplierShareOfPlatform := 0.25
    qomoShareOfPlatform := 0.75
    minPrice := 1000 }

/-- The state after one view by `viewer_1` on the freshly initialized example
drop: `viewer_1` holds the lock, which expires at time `30000`. -/
def stLocked : DropState := (applyView (initDrop exCfg) exCfg "viewer_1" 0).state

/-- The state after an immediate purchase by `buyer_1` on the freshly
initialized example drop: sold, lock and queue cleared. -/
def stSold : DropState := (applyPurchase (initDrop exCfg) exCfg "buyer_1" 0).state

/-- A configuration whose `minPrice` (= `basePrice`) is not representable in
whole cents: 1000.004. -/
def cfgFineMin : DropConfig :=
  { productId := "p2"
    name := "FineMin"
    basePrice := 1000 + 1/250
    viewingFee := 5
    priceDropShare := 0.8
    platformShare := 0.2
    supplierShareOfPlatform := 0.25
    qomoShareOfPlatform := 0.75
    minPrice := 1000 + 1/250 }

/-- A configuration with `basePrice` = 999.996 just below `minPrice` = 1000:
rounding the base price to cents lands exactly on the floor. -/
def cfgNearFloor : DropConfig :=
  { productId := "p3"
    name := "NearFloor"
    basePrice := 999 + 249/250
    viewingFee := 5
    priceDropShare := 0.8
    platformShare := 0.2
    supplierShareOfPlatform := 0.25
    qomoShareOfPlatform := 0.75
    minPrice := 1000 }

/-- A configuration with a whole-cent `basePrice` strictly below `minPrice`. -/
def cfgLowBase : DropConfig :=
  { productId := "p4"
    name := "LowBase"
    basePrice := 999
    viewingFee := 5
    priceDropShare := 0.8
    platformShare := 0.2
    supplierShareOfPlatform := 0.25
    qomoShareOfPlatform := 0.75
    minPrice := 1000 }

/-- Erase the lock-expiry stamp, the only state field whose value (rather
than presence) depends on the sampled clock. -/
def eraseExpiry (s : DropState) : DropState := { s with activeViewExpiresAt := none }

/-- Configuration hypotheses under which the pricing invariants hold:
whole-cent floor and base price, floor below base, and a nonnegative
price-drop amount per view. -/
def NiceConfig (c : DropConfig) : Prop :=
  Quantized c.minPrice ∧ Quantized c.basePrice ∧ c.minPrice ≤ c.basePrice ∧
    0 ≤ c.viewingFee * c.priceDropShare

/-- The price invariant maintained by every engine operation under
`NiceConfig`. -/
def PriceInv (c : DropConfig) (s : DropState) : Prop :=
  Quantized s.currentPrice ∧ c.minPrice ≤ s.currentPrice ∧
    s.currentPrice ≤ c.basePrice

section RoundMoneyLemmas

theorem roundMoney_def (amount : ℚ) :
    roundMoney amount = (⌊amount * 100 + 1/2⌋ : ℤ) / 100 := by
  rw [roundMoney, Rat.floor_def', ← Rat.floor_def]

theorem roundMoney_intCast_div (n : ℤ) : roundMoney ((n : ℚ) / 100) = (n : ℚ) / 100 := by
  rw [roundMoney_def]
  have h1 : ((n : ℚ) / 100) * 100 + 1/2 = (n : ℚ) + 1/2 := by
    field_simp
  rw [h1]
  have h2 : (⌊(n : ℚ) + 1/2⌋ : ℤ) = n := by
    rw [add_comm, Int.floor_add_int]
    norm_num
  rw [h2]

theorem roundMoney_quantized (q : ℚ) : Quantized (roundMoney q) := by
  unfold Quantized
  rw [roundMoney_def q]
  exact roundMoney_intCast_div _

theorem Quantized.exists_int {q : ℚ} (h : Quantized q) : ∃ n : ℤ, q = (n : ℚ) / 100 :=
  ⟨⌊q * 100 + 1/2⌋, by conv_lhs => rw [← h, roundMoney_def]⟩

theorem Quantized.add {p q : ℚ} (hp : Quantized p) (hq : Quantized q) :
    Quantized (p + q) := by
  obtain ⟨m, rfl⟩ := hp.exists_int
  obtain ⟨n, rfl⟩ := hq.exists_int
  have h : (m : ℚ) / 100 + (n : ℚ) / 100 = ((m + n : ℤ) : ℚ) / 100 := by
    push_cast
    ring
  rw [h]
  exact roundMoney_intCast_div _

theorem Quantized.sub {p q : ℚ} (hp : Quantized p) (hq : Quantized q) :
    Quantized (p - q) := by
  obtain ⟨m, rfl⟩ := hp.exists_int
  obtain ⟨n, rfl⟩ := hq.exists_int
  have h : (m : ℚ) / 100 - (n : ℚ) / 100 = ((m - n : ℤ) : ℚ) / 100 := by
    push_cast
    ring
  rw [h]
  exact roundMoney_intCast_div _

theorem roundMoney_mono {p q : ℚ} (h : p ≤ q) : roundMoney p ≤ roundMoney q := by
  rw [roundMoney_def, roundMoney_def]
  have hf : ⌊p * 100 + 1/2⌋ ≤ ⌊q * 100 + 1/2⌋ := Int.floor_mono (by linarith)
  have hc : ((⌊p * 100 + 1/2⌋ : ℤ) : ℚ) ≤ ((⌊q * 100 + 1/2⌋ : ℤ) : ℚ) := by
    exact_mod_cast hf
  linarith

theorem roundMoney_nonneg {q : ℚ} (h : 0 ≤ q) : 0 ≤ roundMoney q := by
  have h0 : roundMoney 0 = 0 := by
    norm_num [roundMoney, Rat.floor]
  calc (0 : ℚ) = roundMoney 0 := h0.symm
    _ ≤ roundMoney q := roundMoney_mono h

end RoundMoneyLemmas

section BranchLemmas

variable {s : DropState} {c : DropConfig} {v b : String} {now : ℕ}

theorem applyView_of_sold (h : s.isSold = true) :
    applyView s c v now =
      { success := false, status := .SOLD, expiresAt := none, queuePosition := none
        dropAmount := 0, newPrice := s.currentPrice, feeCharged := 0, state := s
        errMsg := some "Product is already sold." } := by
  simp [applyView, h]

theorem applyView_of_holder (h0 : s.isSold = false) (h1 : lockActive s now = true)
    (h2 : s.activeViewerId = some v) :
    applyView s c v now =
      { success := true, status := .LOCKED, expiresAt := s.activeViewExpiresAt
        queuePosition := none, dropAmount := 0, newPrice := s.currentPrice
        feeCharged := 0, state := s, errMsg := none } := by
  simp [applyView, h0, h1, h2]

theorem applyView_of_lockedOther (h0 : s.isSold = false) (h1 : lockActive s now = true)
    (h2 : s.activeViewerId ≠ some v) :
    applyView s c v now =
      { success := false, status := .QUEUED, expiresAt := none
        queuePosition :=
          some ((if s.queue.contains v then s.queue else s.queue ++ [v]).indexOf v + 1)
        dropAmount := 0, newPrice := s.currentPrice, feeCharged := 0
        state := { s with queue := if s.queue.contains v then s.queue else s.queue ++ [v] }
        errMsg := none } := by
  simp [applyView, h0, h1, h2]

theorem applyView_of_staleQueue (h0 : s.isSold = false) (h1 : lockActive s now = false)
    (h2 : 0 < s.queue.length) (h3 : s.queue.head? ≠ some v) :
    applyView s c v now =
      { success := false, status := .QUEUED, expiresAt := none
        queuePosition :=
          some ((if s.queue.contains v then s.queue else s.queue ++ [v]).indexOf v + 1)
        dropAmount := 0, newPrice := s.currentPrice, feeCharged := 0
        state := { s with
          activeViewerId := none
          activeViewExpiresAt := none
          queue := if s.queue.contains v then s.queue else s.queue ++ [v] }
        errMsg := none } := by
  simp [applyView, h0, h1, h2, h3]

theorem applyView_of_grant (h0 : s.isSold = false) (h1 : lockActive s now = false)
    (h2 : s.queue = [] ∨ s.queue.head? = some v) :
    applyView s c v now =
      { success := true, status := .LOCKED, expiresAt := some (now + LOCK_DURATION)
        queuePosition := none
        dropAmount :=
          roundMoney (s.currentPrice -
            roundMoney (if s.currentPrice - roundMoney (c.viewingFee * c.priceDropShare) <
                c.minPrice then c.minPrice
              else s.currentPrice - roundMoney (c.viewingFee * c.priceDropShare)))
        newPrice :=
          roundMoney (if s.currentPrice - roundMoney (c.viewingFee * c.priceDropShare) <
              c.minPrice then c.minPrice
            else s.currentPrice - roundMoney (c.viewingFee * c.priceDropShare))
        feeCharged := c.viewingFee
        state := { s with
          currentPrice :=
            roundMoney (if s.currentPrice - roundMoney (c.viewingFee * c.priceDropShare) <
                c.minPrice then c.minPrice
              else s.currentPrice - roundMoney (c.viewingFee * c.priceDropShare))
          totalViews := s.totalViews + 1
          totalPlatformRevenue :=
            roundMoney (s.totalPlatformRevenue + roundMoney (c.viewingFee * c.platformShare))
          totalSupplierPlatformRevenue :=
            roundMoney (s.totalSupplierPlatformRevenue +
              roundMoney (roundMoney (c.viewingFee * c.platformShare) *
                c.supplierShareOfPlatform))
          totalQomoRevenue :=
            roundMoney (s.totalQomoRevenue +
              roundMoney (roundMoney (c.viewingFee * c.platformShare) *
                c.qomoShareOfPlatform))
          activeViewerId := some v
          activeViewExpiresAt := some (now + LOCK_DURATION)
          queue := s.queue.filter (fun id => id ≠ v) }
        errMsg := none } := by
  have hq : ¬ (0 < s.queue.length ∧ s.queue.head? ≠ some v) := by
    rcases h2 with h2 | h2
    · simp [h2]
    · simp [h2]
  simp [applyView, h0, h1, hq]

theorem releaseLock_of_holder (h : s.activeViewerId = some v) :
    releaseLock s v = { s with activeViewerId := none, activeViewExpiresAt := none } := by
  simp [releaseLock, h]

theorem releaseLock_of_other (h : s.activeViewerId ≠ some v) :
    releaseLock s v = s := by
  simp [releaseLock, h]

theorem applyPurchase_of_sold (h : s.isSold = true) :
    applyPurchase s c b now =
      { success := false, soldPrice := 0, totalSupplierRevenue := 0
        totalQomoRevenue := 0, state := s
        errMsg := some "Product is already sold." } := by
  simp [applyPurchase, h]

theorem applyPurchase_of_lockedByOther (h0 : s.isSold = false)
    (h1 : lockedByOther s b now = true) :
    applyPurchase s c b now =
      { success := false, soldPrice := 0, totalSupplierRevenue := 0
        totalQomoRevenue := 0, state := s
        errMsg := some "Product is currently locked by another user." } := by
  simp [applyPurchase, h0, h1]

theorem applyPurchase_of_ok (h0 : s.isSold = false)
    (h1 : lockedByOther s b now = false) :
    applyPurchase s c b now =
      { success := true, soldPrice := s.currentPrice
        totalSupplierRevenue := roundMoney (s.currentPrice + s.totalSupplierPlatformRevenue)
        totalQomoRevenue := s.totalQomoRevenue
        state := { s with
          isSold := true
          buyerId := some b
          soldPrice := some s.currentPrice
          activeViewerId := none
          activeViewExpiresAt := none
          queue := [] }
        errMsg := none } := by
  simp [applyPurchase, h0, h1]

theorem lockedByOther_iff :
    lockedByOther s b now = true ↔
      lockActive s now = true ∧ s.activeViewerId ≠ some b := by
  cases hv : s.activeViewerId with
  | none => simp [lockedByOther, lockActive, hv]
  | some v0 =>
    cases he : s.activeViewExpiresAt with
    | none => simp [lockedByOther, lockActive, hv, he]
    | some e0 =>
      simp only [lockedByOther, lockActive, hv, he, Bool.and_eq_true, decide_eq_true_eq,
        ne_eq, Option.some.injEq]
      tauto

end BranchLemmas

section InvariantLemmas

variable {s : DropState} {c : DropConfig} {v b : String} {now : ℕ}

theorem applyView_isSold_eq (s : DropState) (c : DropConfig) (v : String) (now : ℕ) :
    (applyView s c v now).state.isSold = s.isSold := by
  unfold applyView
  split_ifs <;> rfl

theorem releaseLock_isSold_eq (s : DropState) (v : String) :
    (releaseLock s v).isSold = s.isSold := by
  unfold releaseLock
  split_ifs <;> rfl

theorem releaseLock_currentPrice_eq (s : DropState) (v : String) :
    (releaseLock s v).currentPrice = s.currentPrice := by
  unfold releaseLock
  split_ifs <;> rfl

theorem applyPurchase_currentPrice_eq (s : DropState) (c : DropConfig) (b : String)
    (now : ℕ) : (applyPurchase s c b now).state.currentPrice = s.currentPrice := by
  unfold applyPurchase
  split_ifs <;> rfl

/-- The clamped-and-rounded next price computed in the grant branch stays
quantized, at or above the floor, and at or below the old price. -/
theorem nextPrice_bounds (c : DropConfig) (cur : ℚ) (hqm : Quantized c.minPrice)
    (hqc : Quantized cur) (hmc : c.minPrice ≤ cur)
    (hfee : 0 ≤ c.viewingFee * c.priceDropShare) :
    Quantized (roundMoney
        (if cur - roundMoney (c.viewingFee * c.priceDropShare) < c.minPrice then c.minPrice
          else cur - roundMoney (c.viewingFee * c.priceDropShare))) ∧
    c.minPrice ≤ roundMoney
        (if cur - roundMoney (c.viewingFee * c.priceDropShare) < c.minPrice then c.minPrice
          else cur - roundMoney (c.viewingFee * c.priceDropShare)) ∧
    roundMoney
        (if cur - roundMoney (c.viewingFee * c.priceDropShare) < c.minPrice then c.minPrice
          else cur - roundMoney (c.viewingFee * c.priceDropShare)) ≤ cur := by
  have hd0 : 0 ≤ roundMoney (c.viewingFee * c.priceDropShare) := roundMoney_nonneg hfee
  have hdq : Quantized (roundMoney (c.viewingFee * c.priceDropShare)) :=
    roundMoney_quantized _
  have hxq : Quantized
      (if cur - roundMoney (c.viewingFee * c.priceDropShare) < c.minPrice then c.minPrice
        else cur - roundMoney (c.viewingFee * c.priceDropShare)) := by
    split_ifs
    · exact hqm
    · exact hqc.sub hdq
  rw [hxq]
  refine ⟨hxq, ?_, ?_⟩
  · split_ifs with h
    · exact le_refl _
    · linarith [not_lt.mp h]
  · split_ifs with h
    · exact hmc
    · linarith

/-- `applyView` preserves the price invariant and never raises the price. -/
theorem applyView_priceInv (hc : NiceConfig c) (h : PriceInv c s) :
    PriceInv c (applyView s c v now).state ∧
      (applyView s c v now).state.currentPrice ≤ s.currentPrice := by
  obtain ⟨hqm, hqb, hmb, hfee⟩ := hc
  obtain ⟨hqc, hmc, hcb⟩ := h
  by_cases hs : s.isSold = true
  · rw [applyView_of_sold hs]
    exact ⟨⟨hqc, hmc, hcb⟩, le_refl _⟩
  · replace hs : s.isSold = false := by
      revert hs
      cases s.isSold <;> simp
    by_cases hl : lockActive s now = true
    · by_cases hv : s.activeViewerId = some v
      · rw [applyView_of_holder hs hl hv]
        exact ⟨⟨hqc, hmc, hcb⟩, le_refl _⟩
      · rw [applyView_of_lockedOther hs hl hv]
        exact ⟨⟨hqc, hmc, hcb⟩, le_refl _⟩
    · replace hl : lockActive s now = false := by
        revert hl
        cases lockActive s now <;> simp
      by_cases hq : 0 < s.queue.length ∧ s.queue.head? ≠ some v
      · rw [applyView_of_staleQueue hs hl hq.1 hq.2]
        exact ⟨⟨hqc, hmc, hcb⟩, le_refl _⟩
      · have hq' : s.queue = [] ∨ s.queue.head? = some v := by
          rcases Decidable.not_and_iff_or_not.mp hq with h1 | h2
          · left
            cases hqe : s.queue with
            | nil => rfl
            | cons a t => rw [hqe] at h1; simp at h1
          · right
            exact Decidable.not_not.mp h2
        rw [applyView_of_grant hs hl hq']
        obtain ⟨hx1, hx2, hx3⟩ := nextPrice_bounds c s.currentPrice hqm hqc hmc hfee
        exact ⟨⟨hx1, hx2, le_trans hx3 hcb⟩, hx3⟩

/-- Every engine step preserves the price invariant and never raises the price. -/
theorem step_priceInv {t : DropState} (hc : NiceConfig c) (h : PriceInv c s)
    (hst : Step c s t) : PriceInv c t ∧ t.currentPrice ≤ s.currentPrice := by
  cases hst with
  | view v n => exact applyView_priceInv hc h
  | release v =>
    constructor
    · obtain ⟨h1, h2, h3⟩ := h
      refine ⟨?_, ?_, ?_⟩ <;> rw [releaseLock_currentPrice_eq] <;> assumption
    · rw [releaseLock_currentPrice_eq]
  | purchase b n =>
    constructor
    · obtain ⟨h1, h2, h3⟩ := h
      refine ⟨?_, ?_, ?_⟩ <;> rw [applyPurchase_currentPrice_eq] <;> assumption
    · rw [applyPurchase_currentPrice_eq]

/-- Every reachable state satisfies the price invariant. -/
theorem reachable_priceInv (hc : NiceConfig c) (hr : Reachable c s) : PriceInv c s := by
  induction hr with
  | init =>
    refine ⟨?_, ?_, ?_⟩
    · show Quantized (roundMoney c.basePrice)
      exact roundMoney_quantized _
    · show c.minPrice ≤ roundMoney c.basePrice
      rw [show roundMoney c.basePrice = c.basePrice from hc.2.1] at *
      exact hc.2.2.1
    · show roundMoney c.basePrice ≤ c.basePrice
      rw [show roundMoney c.basePrice = c.basePrice from hc.2.1]
  | step _ hst ih => exact (step_priceInv hc ih hst).1

/-- In every reachable sold state the lock fields are cleared and the queue
is empty. -/
theorem reachable_sold_clean (hr : Reachable c s) (hs : s.isSold = true) :
    s.activeViewerId = none := by
  induction hr with
  | init => simp [initDrop] at hs
  | step hprev hst ih =>
    rename_i s1 t1
    cases hst with
    | view v1 n1 =>
      have hs1 : s1.isSold = true := by rw [← applyView_isSold_eq s1 c v1 n1]; exact hs
      rw [applyView_of_sold hs1]
      exact ih hs1
    | release v1 =>
      have hs1 : s1.isSold = true := by rw [← releaseLock_isSold_eq s1 v1]; exact hs
      have hnone : s1.activeViewerId = none := ih hs1
      rw [releaseLock_of_other (by rw [hnone]; intro h; cases h)]
      exact hnone
    | purchase b1 n1 =>
      by_cases hs1 : s1.isSold = true
      · rw [applyPurchase_of_sold hs1]
        exact ih hs1
      · replace hs1 : s1.isSold = false := by
          revert hs1
          cases s1.isSold <;> simp
        by_cases hlk : lockedByOther s1 b1 n1 = true
        · rw [applyPurchase_of_lockedByOther hs1 hlk] at hs
          rw [hs1] at hs
          cases hs
        · replace hlk : lockedByOther s1 b1 n1 = false := by
            revert hlk
            cases lockedByOther s1 b1 n1 <;> simp
          rw [applyPurchase_of_ok hs1 hlk]

/-- Every branch of `applyView` leaves the current price either unchanged or
freshly rounded, so quantization of the price is preserved. -/
theorem applyView_quantized_price {s : DropState} {c : DropConfig} {v : String}
    {now : ℕ} (h : Quantized s.currentPrice) :
    Quantized (applyView s c v now).state.currentPrice := by
  unfold applyView
  split_ifs <;> first | exact h | exact roundMoney_quantized _

/-- Every reachable state has a whole-cent current price, for any config:
this is the standing hypothesis of the grant-postcondition theorem. -/
theorem reachable_quantized_price {s : DropState} {c : DropConfig}
    (hr : Reachable c s) : Quantized s.currentPrice := by
  induction hr with
  | init => exact roundMoney_quantized _
  | step hprev hst ih =>
    cases hst with
    | view v1 n1 => exact applyView_quantized_price ih
    | release v1 => rw [releaseLock_currentPrice_eq]; exact ih
    | purchase b1 n1 => rw [applyPurchase_currentPrice_eq]; exact ih

end InvariantLemmas

section Claims

/-- Claim C1, as stated, is false: it quantifies over every config with
`minPrice ≤ basePrice`, but for `cfgFineMin` (whose floor 1000.004 is not a
whole number of cents) the state reached by one `applyView` from the initial
state has `currentPrice = 1000 < minPrice`: rounding the clamped price to two
decimals lands below the floor. -/
theorem C1_counterexample :
    cfgFineMin.minPrice ≤ cfgFineMin.basePrice ∧
    Reachable cfgFineMin (applyView (initDrop cfgFineMin) cfgFineMin "viewer_1" 0).state ∧
    (applyView (initDrop cfgFineMin) cfgFineMin "viewer_1" 0).state.currentPrice <
      cfgFineMin.minPrice := by
  refine ⟨by norm_num [cfgFineMin],
    Reachable.step Reachable.init (Step.view (initDrop cfgFineMin) "viewer_1" 0), ?_⟩
  norm_num [applyView, initDrop, lockActive, cfgFineMin, roundMoney, Rat.floor]

/-- Claim C1 (amended): for every config whose `minPrice` and `basePrice` are
quantized to two decimals, with `minPrice ≤ basePrice` and a nonnegative
per-view price-drop amount `viewingFee * priceDropShare`, every reachable
state satisfies `currentPrice ≥ minPrice`, until the sale
`currentPrice ≤ basePrice`, and no engine operation ever increases
`currentPrice`. -/
theorem C1_price_floor_and_monotonicity (c : DropConfig)
    (hqm : Quantized c.minPrice) (hqb : Quantized c.basePrice)
    (hmb : c.minPrice ≤ c.basePrice)
    (hfee : 0 ≤ c.viewingFee * c.priceDropShare) :
    (∀ s, Reachable c s →
      c.minPrice ≤ s.currentPrice ∧
        (s.isSold = false → s.currentPrice ≤ c.basePrice)) ∧
    (∀ s t, Reachable c s → Step c s t → t.currentPrice ≤ s.currentPrice) := by
  have hc : NiceConfig c := ⟨hqm, hqb, hmb, hfee⟩
  constructor
  · intro s hr
    obtain ⟨_, h2, h3⟩ := reachable_priceInv hc hr
    exact ⟨h2, fun _ => h3⟩
  · intro s t hr hst
    exact (step_priceInv hc (reachable_priceInv hc hr) hst).2

theorem C1_witness :
    exCfg.minPrice ≤ (initDrop exCfg).currentPrice ∧
    (initDrop exCfg).currentPrice ≤ exCfg.basePrice := by
  have h := (C1_price_floor_and_monotonicity exCfg
    (by norm_num [Quantized, roundMoney, Rat.floor, exCfg])
    (by norm_num [Quantized, roundMoney, Rat.floor, exCfg])
    (by norm_num [exCfg])
    (by norm_num [exCfg])).1 (initDrop exCfg) Reachable.init
  exact ⟨h.1, h.2 rfl⟩

/-- Claim C2: when `applyView` grants the lock (state not sold, no unexpired
lock, queue empty or the actor at its head; `currentPrice` quantized as in
every reachable state), the result is exactly the record computed by the
grant branch: price dropped to
`round(max(minPrice, currentPrice - round(viewingFee * priceDropShare)))`,
`totalViews` incremented, the three revenue totals accumulated and
re-rounded, the actor removed from the queue and installed as the lock
holder with expiry `now + LOCK_DURATION`, and a success result with status
`LOCKED`, `feeCharged = viewingFee`, `newPrice` the new price, and
`dropAmount` the old price minus the new price. -/
theorem C2_grant_postconditions (s : DropState) (c : DropConfig) (v : String)
    (now : ℕ) (hsold : s.isSold = false) (hlock : lockActive s now = false)
    (hqueue : s.queue = [] ∨ s.queue.head? = some v)
    (hq : Quantized s.currentPrice) :
    applyView s c v now =
      { success := true, status := .LOCKED
        expiresAt := some (now + LOCK_DURATION)
        queuePosition := none
        dropAmount := s.currentPrice - roundMoney (max c.minPrice
          (s.currentPrice - roundMoney (c.viewingFee * c.priceDropShare)))
        newPrice := roundMoney (max c.minPrice
          (s.currentPrice - roundMoney (c.viewingFee * c.priceDropShare)))
        feeCharged := c.viewingFee
        state := { s with
          currentPrice := roundMoney (max c.minPrice
            (s.currentPrice - roundMoney (c.viewingFee * c.priceDropShare)))
          totalViews := s.totalViews + 1
          totalPlatformRevenue :=
            roundMoney (s.totalPlatformRevenue + roundMoney (c.viewingFee * c.platformShare))
          totalSupplierPlatformRevenue :=
            roundMoney (s.totalSupplierPlatformRevenue +
              roundMoney (roundMoney (c.viewingFee * c.platformShare) *
                c.supplierShareOfPlatform))
          totalQomoRevenue :=
            roundMoney (s.totalQomoRevenue +
              roundMoney (roundMoney (c.viewingFee * c.platformShare) *
                c.qomoShareOfPlatform))
          activeViewerId := some v
          activeViewExpiresAt := some (now + LOCK_DURATION)
          queue := s.queue.filter (fun id => id ≠ v) }
        errMsg := none } := by
  rw [applyView_of_grant hsold hlock hqueue]
  have hite : (if s.currentPrice - roundMoney (c.viewingFee * c.priceDropShare) <
      c.minPrice then c.minPrice
      else s.currentPrice - roundMoney (c.viewingFee * c.priceDropShare)) =
      max c.minPrice (s.currentPrice - roundMoney (c.viewingFee * c.priceDropShare)) := by
    split_ifs with h
    · exact (max_eq_left (le_of_lt h)).symm
    · exact (max_eq_right (not_lt.mp h)).symm
  have hdrop : roundMoney (s.currentPrice - roundMoney (max c.minPrice
      (s.currentPrice - roundMoney (c.viewingFee * c.priceDropShare)))) =
      s.currentPrice - roundMoney (max c.minPrice
        (s.currentPrice - roundMoney (c.viewingFee * c.priceDropShare))) :=
    hq.sub (roundMoney_quantized _)
  rw [hite, hdrop]

theorem C2_witness :
    (applyView (initDrop exCfg) exCfg "viewer_1" 0).success = true ∧
    (applyView (initDrop exCfg) exCfg "viewer_1" 0).status = .LOCKED ∧
    (applyView (initDrop exCfg) exCfg "viewer_1" 0).feeCharged = 5 ∧
    (applyView (initDrop exCfg) exCfg "viewer_1" 0).newPrice = 1096 ∧
    (applyView (initDrop exCfg) exCfg "viewer_1" 0).dropAmount = 4 ∧
    (applyView (initDrop exCfg) exCfg "viewer_1" 0).state.currentPrice = 1096 ∧
    (applyView (initDrop exCfg) exCfg "viewer_1" 0).state.totalViews = 1 ∧
    (applyView (initDrop exCfg) exCfg "viewer_1" 0).state.totalPlatformRevenue = 1 ∧
    (applyView (initDrop exCfg) exCfg "viewer_1" 0).state.totalSupplierPlatformRevenue = 0.25 ∧
    (applyView (initDrop exCfg) exCfg "viewer_1" 0).state.totalQomoRevenue = 0.75 ∧
    (applyView (initDrop exCfg) exCfg "viewer_1" 0).state.activeViewerId = some "viewer_1" ∧
    (applyView (initDrop exCfg) exCfg "viewer_1" 0).state.activeViewExpiresAt = some 30000 := by
  rw [C2_grant_postconditions (initDrop exCfg) exCfg "viewer_1" 0 rfl rfl (Or.inl rfl)
    (by norm_num [Quantized, roundMoney, Rat.floor, initDrop, exCfg])]
  norm_num [initDrop, exCfg, roundMoney, Rat.floor, LOCK_DURATION, max_def]

/-- Claim C3: for every unsold state with no unexpired lock held by an actor
other than `buyerId`, `applyPurchase` succeeds with `soldPrice` the current
price (no further drop), reports
`totalSupplierRevenue = round(soldPrice + totalSupplierPlatformRevenue)` and
the accrued `totalQomoRevenue` unchanged, and returns the terminal state with
the sale facts recorded, the lock cleared and the queue emptied. -/
theorem C3_purchase_postconditions (s : DropState) (c : DropConfig) (b : String)
    (now : ℕ) (hsold : s.isSold = false)
    (hlock : ¬ (lockActive s now = true ∧ s.activeViewerId ≠ some b)) :
    applyPurchase s c b now =
      { success := true, soldPrice := s.currentPrice
        totalSupplierRevenue := roundMoney (s.currentPrice + s.totalSupplierPlatformRevenue)
        totalQomoRevenue := s.totalQomoRevenue
        state := { s with
          isSold := true
          buyerId := some b
          soldPrice := some s.currentPrice
          activeViewerId := none
          activeViewExpiresAt := none
          queue := [] }
        errMsg := none } := by
  have hlk : lockedByOther s b now = false := by
    cases h : lockedByOther s b now
    · rfl
    · exact absurd (lockedByOther_iff.mp h) hlock
  exact applyPurchase_of_ok hsold hlk

theorem C3_witness :
    (applyPurchase (initDrop exCfg) exCfg "buyer_1" 0).success = true ∧
    (applyPurchase (initDrop exCfg) exCfg "buyer_1" 0).soldPrice = 1100 ∧
    (applyPurchase (initDrop exCfg) exCfg "buyer_1" 0).totalSupplierRevenue = 1100 ∧
    (applyPurchase (initDrop exCfg) exCfg "buyer_1" 0).totalQomoRevenue = 0 ∧
    (applyPurchase (initDrop exCfg) exCfg "buyer_1" 0).state.isSold = true ∧
    (applyPurchase (initDrop exCfg) exCfg "buyer_1" 0).state.buyerId = some "buyer_1" ∧
    (applyPurchase (initDrop exCfg) exCfg "buyer_1" 0).state.soldPrice = some 1100 ∧
    (applyPurchase (initDrop exCfg) exCfg "buyer_1" 0).state.activeViewerId = none ∧
    (applyPurchase (initDrop exCfg) exCfg "buyer_1" 0).state.queue = [] := by
  rw [C3_purchase_postconditions (initDrop exCfg) exCfg "buyer_1" 0 rfl
    (by simp [lockActive, initDrop])]
  norm_num [initDrop, exCfg, roundMoney, Rat.floor]

/-- Claim C4: `applyPurchase` fails exactly when the state is already sold
(already-sold error) or an unexpired lock is held by an actor other than
`buyerId` (locked-by-other error); every failure returns the input state
unchanged, and in every other case the purchase succeeds. -/
theorem C4_purchase_error_cases (s : DropState) (c : DropConfig) (b : String)
    (now : ℕ) :
    ((applyPurchase s c b now).success = false ↔
      s.isSold = true ∨ (lockActive s now = true ∧ s.activeViewerId ≠ some b)) ∧
    (s.isSold = true →
      applyPurchase s c b now =
        { success := false, soldPrice := 0, totalSupplierRevenue := 0
          totalQomoRevenue := 0, state := s
          errMsg := some "Product is already sold." }) ∧
    (s.isSold = false → lockActive s now = true → s.activeViewerId ≠ some b →
      applyPurchase s c b now =
        { success := false, soldPrice := 0, totalSupplierRevenue := 0
          totalQomoRevenue := 0, state := s
          errMsg := some "Product is currently locked by another user." }) ∧
    ((applyPurchase s c b now).success = false → (applyPurchase s c b now).state = s) := by
  by_cases hs : s.isSold = true
  · rw [applyPurchase_of_sold hs]
    refine ⟨by simp [hs], fun _ => rfl, fun h => absurd hs (by rw [h]; simp), fun _ => rfl⟩
  · replace hs : s.isSold = false := by
      revert hs
      cases s.isSold <;> simp
    by_cases hlk : lockedByOther s b now = true
    · rw [applyPurchase_of_lockedByOther hs hlk]
      have hiff := lockedByOther_iff.mp hlk
      refine ⟨by simp [hs, hiff], fun h => absurd h (by rw [hs]; simp),
        fun _ _ _ => rfl, fun _ => rfl⟩
    · replace hlk : lockedByOther s b now = false := by
        revert hlk
        cases lockedByOther s b now <;> simp
      rw [applyPurchase_of_ok hs hlk]
      have hnot : ¬ (lockActive s now = true ∧ s.activeViewerId ≠ some b) := by
        intro hcon
        rw [lockedByOther_iff.mpr hcon] at hlk
        cases hlk
      refine ⟨by simp [hs, hnot], fun h => absurd h (by rw [hs]; simp),
        fun _ h1 h2 => absurd ⟨h1, h2⟩ hnot, by simp⟩

theorem C4_witness :
    (applyPurchase stSold exCfg "buyer_2" 5).success = false ∧
    (applyPurchase stSold exCfg "buyer_2" 5).state = stSold ∧
    (applyPurchase stSold exCfg "buyer_2" 5).errMsg = some "Product is already sold." := by
  have hs : stSold.isSold = true := by
    norm_num [stSold, applyPurchase, lockedByOther, initDrop, exCfg]
  have h := C4_purchase_error_cases stSold exCfg "buyer_2" 5
  have heq := h.2.1 hs
  rw [heq]
  exact ⟨rfl, rfl, rfl⟩

/-- Claim C5: a renewed `applyView` by the holder of an unexpired lock (in
any reachable state) is idempotent: success with status `LOCKED`, the stored
expiry returned, no fee, no drop, current price returned, and the state
completely unchanged. -/
theorem C5_holder_idempotent (c : DropConfig) (s : DropState) (v : String)
    (now : ℕ) (hr : Reachable c s) (hlock : lockActive s now = true)
    (hv : s.activeViewerId = some v) :
    applyView s c v now =
      { success := true, status := .LOCKED, expiresAt := s.activeViewExpiresAt
        queuePosition := none, dropAmount := 0, newPrice := s.currentPrice
        feeCharged := 0, state := s, errMsg := none } := by
  have hsold : s.isSold = false := by
    by_cases h : s.isSold = true
    · rw [reachable_sold_clean hr h] at hv
      cases hv
    · revert h
      cases s.isSold <;> simp
  exact applyView_of_holder hsold hlock hv

theorem C5_witness :
    (applyView stLocked exCfg "viewer_1" 10).success = true ∧
    (applyView stLocked exCfg "viewer_1" 10).feeCharged = 0 ∧
    (applyView stLocked exCfg "viewer_1" 10).dropAmount = 0 ∧
    (applyView stLocked exCfg "viewer_1" 10).expiresAt = stLocked.activeViewExpiresAt ∧
    (applyView stLocked exCfg "viewer_1" 10).state = stLocked := by
  have hr : Reachable exCfg stLocked :=
    Reachable.step Reachable.init (Step.view (initDrop exCfg) "viewer_1" 0)
  have hlock : lockActive stLocked 10 = true := by
    norm_num [stLocked, applyView, initDrop, lockActive, exCfg, roundMoney, Rat.floor,
      LOCK_DURATION]
    decide
  have hv : stLocked.activeViewerId = some "viewer_1" := by
    norm_num [stLocked, applyView, initDrop, lockActive, exCfg, roundMoney, Rat.floor]
  rw [C5_holder_idempotent exCfg stLocked "viewer_1" 10 hr hlock hv]
  exact ⟨rfl, rfl, rfl, rfl, rfl⟩

/-- Claim C6: `applyView` charges a fee (bumping `totalViews`) only for an
eligible actor (not sold, no unexpired lock, queue empty or actor at head);
while locked by someone else the caller is appended to the queue tail only
if absent and gets `QUEUED` with 1-based position, lock fields untouched;
and with no active lock but a non-empty queue with a different head the
caller is likewise enqueued, stale lock fields are cleared, and `QUEUED`
is returned. -/
theorem C6_fifo_queueing (s : DropState) (c : DropConfig) (v : String) (now : ℕ) :
    ((applyView s c v now).state.totalViews ≠ s.totalViews →
      s.isSold = false ∧ lockActive s now = false ∧
        (s.queue = [] ∨ s.queue.head? = some v)) ∧
    (s.isSold = false → lockActive s now = true → s.activeViewerId ≠ some v →
      applyView s c v now =
        { success := false, status := .QUEUED, expiresAt := none
          queuePosition :=
            some ((if s.queue.contains v then s.queue else s.queue ++ [v]).indexOf v + 1)
          dropAmount := 0, newPrice := s.currentPrice, feeCharged := 0
          state := { s with queue := if s.queue.contains v then s.queue else s.queue ++ [v] }
          errMsg := none }) ∧
    (s.isSold = false → lockActive s now = false → 0 < s.queue.length →
      s.queue.head? ≠ some v →
      applyView s c v now =
        { success := false, status := .QUEUED, expiresAt := none
          queuePosition :=
            some ((if s.queue.contains v then s.queue else s.queue ++ [v]).indexOf v + 1)
          dropAmount := 0, newPrice := s.currentPrice, feeCharged := 0
          state := { s with
            activeViewerId := none
            activeViewExpiresAt := none
            queue := if s.queue.contains v then s.queue else s.queue ++ [v] }
          errMsg := none }) := by
  refine ⟨?_, applyView_of_lockedOther, applyView_of_staleQueue⟩
  intro hTV
  by_cases hs : s.isSold = true
  · rw [applyView_of_sold hs] at hTV
    exact absurd rfl hTV
  · replace hs : s.isSold = false := by
      revert hs
      cases s.isSold <;> simp
    by_cases hl : lockActive s now = true
    · by_cases hv : s.activeViewerId = some v
      · rw [applyView_of_holder hs hl hv] at hTV
        exact absurd rfl hTV
      · rw [applyView_of_lockedOther hs hl hv] at hTV
        exact absurd rfl hTV
    · replace hl : lockActive s now = false := by
        revert hl
        cases lockActive s now <;> simp
      by_cases hq : 0 < s.queue.length ∧ s.queue.head? ≠ some v
      · rw [applyView_of_staleQueue hs hl hq.1 hq.2] at hTV
        exact absurd rfl hTV
      · have hq' : s.queue = [] ∨ s.queue.head? = some v := by
          rcases Decidable.not_and_iff_or_not.mp hq with h1 | h2
          · left
            cases hqe : s.queue with
            | nil => rfl
            | cons a t => rw [hqe] at h1; simp at h1
          · right
            exact Decidable.not_not.mp h2
        exact ⟨hs, hl, hq'⟩

theorem C6_witness :
    (applyView stLocked exCfg "viewer_2" 10).success = false ∧
    (applyView stLocked exCfg "viewer_2" 10).status = .QUEUED ∧
    (applyView stLocked exCfg "viewer_2" 10).queuePosition = some 1 ∧
    (applyView stLocked exCfg "viewer_2" 10).feeCharged = 0 ∧
    (applyView stLocked exCfg "viewer_2" 10).state.queue = ["viewer_2"] ∧
    (applyView stLocked exCfg "viewer_2" 10).state.activeViewerId = stLocked.activeViewerId := by
  have hs : stLocked.isSold = false := by
    norm_num [stLocked, applyView, initDrop, lockActive, exCfg, roundMoney, Rat.floor]
  have hlock : lockActive stLocked 10 = true := by
    norm_num [stLocked, applyView, initDrop, lockActive, exCfg, roundMoney, Rat.floor,
      LOCK_DURATION]
    decide
  have hv : stLocked.activeViewerId ≠ some "viewer_2" := by
    have h1 : stLocked.activeViewerId = some "viewer_1" := by
      norm_num [stLocked, applyView, initDrop, lockActive, exCfg, roundMoney, Rat.floor]
    rw [h1]
    simp
  have hqe : stLocked.queue = [] := by
    norm_num [stLocked, applyView, initDrop, lockActive, exCfg, roundMoney, Rat.floor]
  rw [(C6_fifo_queueing stLocked exCfg "viewer_2" 10).2.1 hs hlock hv]
  refine ⟨rfl, rfl, ?_, rfl, ?_, rfl⟩
  · simp [hqe, List.indexOf, List.findIdx, List.findIdx.go]
  · simp [hqe]

/-- Claim C7: once a reachable state is sold it is terminal: `applyView`
returns failure `SOLD` with no fee and the state unchanged, `applyPurchase`
fails with the already-sold error and the state unchanged, and `releaseLock`
leaves it unchanged, so no field ever changes again. -/
theorem C7_terminal_immutable (c : DropConfig) (s : DropState)
    (hr : Reachable c s) (hs : s.isSold = true) :
    (∀ v now, applyView s c v now =
      { success := false, status := .SOLD, expiresAt := none, queuePosition := none
        dropAmount := 0, newPrice := s.currentPrice, feeCharged := 0, state := s
        errMsg := some "Product is already sold." }) ∧
    (∀ b now, applyPurchase s c b now =
      { success := false, soldPrice := 0, totalSupplierRevenue := 0
        totalQomoRevenue := 0, state := s
        errMsg := some "Product is already sold." }) ∧
    (∀ v, releaseLock s v = s) := by
  refine ⟨fun v now => applyView_of_sold hs, fun b now => applyPurchase_of_sold hs,
    fun v => ?_⟩
  refine releaseLock_of_other ?_
  rw [reachable_sold_clean hr hs]
  intro h
  cases h

theorem C7_witness :
    (applyView stSold exCfg "viewer_9" 50).status = .SOLD ∧
    (applyView stSold exCfg "viewer_9" 50).state = stSold ∧
    (applyPurchase stSold exCfg "buyer_9" 50).success = false ∧
    (applyPurchase stSold exCfg "buyer_9" 50).state = stSold ∧
    releaseLock stSold "viewer_9" = stSold := by
  have hr : Reachable exCfg stSold :=
    Reachable.step Reachable.init (Step.purchase (initDrop exCfg) "buyer_1" 0)
  have hs : stSold.isSold = true := by
    norm_num [stSold, applyPurchase, lockedByOther, initDrop, exCfg]
  have h := C7_terminal_immutable exCfg stSold hr hs
  rw [h.1 "viewer_9" 50, h.2.1 "buyer_9" 50]
  exact ⟨rfl, rfl, rfl, rfl, h.2.2 "viewer_9"⟩

/-- Claim C8, as stated, is false: `applyView` is not a function of
`(state, config, actor)` alone, because the source reads `Date.now()`
internally.  On the reachable state `stLocked` (lock held by `viewer_1`
until 30000), two calls by `viewer_2` that differ only in the hidden clock
reading give different results: `QUEUED` at time 100, `LOCKED` at time
40000. -/
theorem C8_counterexample :
    Reachable exCfg stLocked ∧
    (applyView stLocked exCfg "viewer_2" 100).status = .QUEUED ∧
    (applyView stLocked exCfg "viewer_2" 40000).status = .LOCKED ∧
    (applyView stLocked exCfg "viewer_2" 100).status ≠
      (applyView stLocked exCfg "viewer_2" 40000).status := by
  refine ⟨Reachable.step Reachable.init (Step.view (initDrop exCfg) "viewer_1" 0),
    ?_, ?_, ?_⟩ <;>
    norm_num [stLocked, applyView, initDrop, lockActive, exCfg, roundMoney, Rat.floor,
      LOCK_DURATION] <;>
    decide

/-- Claim C8 (amended): each engine operation is a deterministic function of
its explicit inputs plus the single clock value sampled at entry
(`releaseLock` takes no clock at all).  The clock influences `applyView`
only through the lock-expiry test and the freshly stamped expiry: two calls
with identical `(state, config, actor)` whose timestamps agree on whether
the stored lock is expired return identical results except possibly for the
expiry stamp, and identical `applyPurchase` results. -/
theorem C8_clock_relative_determinism (s : DropState) (c : DropConfig) (a : String)
    (now₁ now₂ : ℕ) (h : lockActive s now₁ = lockActive s now₂) :
    ((applyView s c a now₁).success = (applyView s c a now₂).success ∧
     (applyView s c a now₁).status = (applyView s c a now₂).status ∧
     (applyView s c a now₁).queuePosition = (applyView s c a now₂).queuePosition ∧
     (applyView s c a now₁).dropAmount = (applyView s c a now₂).dropAmount ∧
     (applyView s c a now₁).newPrice = (applyView s c a now₂).newPrice ∧
     (applyView s c a now₁).feeCharged = (applyView s c a now₂).feeCharged ∧
     (applyView s c a now₁).errMsg = (applyView s c a now₂).errMsg ∧
     eraseExpiry (applyView s c a now₁).state = eraseExpiry (applyView s c a now₂).state) ∧
    applyPurchase s c a now₁ = applyPurchase s c a now₂ := by
  constructor
  · by_cases hs : s.isSold = true
    · rw [@applyView_of_sold s c a now₁ hs, @applyView_of_sold s c a now₂ hs]
      exact ⟨rfl, rfl, rfl, rfl, rfl, rfl, rfl, rfl⟩
    · replace hs : s.isSold = false := by
        revert hs
        cases s.isSold <;> simp
      by_cases hl : lockActive s now₁ = true
      · have hl2 : lockActive s now₂ = true := by rw [← h]; exact hl
        by_cases hv : s.activeViewerId = some a
        · rw [applyView_of_holder hs hl hv, applyView_of_holder hs hl2 hv]
          exact ⟨rfl, rfl, rfl, rfl, rfl, rfl, rfl, rfl⟩
        · rw [applyView_of_lockedOther hs hl hv, applyView_of_lockedOther hs hl2 hv]
          exact ⟨rfl, rfl, rfl, rfl, rfl, rfl, rfl, rfl⟩
      · replace hl : lockActive s now₁ = false := by
          revert hl
          cases lockActive s now₁ <;> simp
        have hl2 : lockActive s now₂ = false := by rw [← h]; exact hl
        by_cases hq : 0 < s.queue.length ∧ s.queue.head? ≠ some a
        · rw [applyView_of_staleQueue hs hl hq.1 hq.2,
            applyView_of_staleQueue hs hl2 hq.1 hq.2]
          exact ⟨rfl, rfl, rfl, rfl, rfl, rfl, rfl, rfl⟩
        · have hq' : s.queue = [] ∨ s.queue.head? = some a := by
            rcases Decidable.not_and_iff_or_not.mp hq with h1 | h2
            · left
              cases hqe : s.queue with
              | nil => rfl
              | cons x t => rw [hqe] at h1; simp at h1
            · right
              exact Decidable.not_not.mp h2
          rw [applyView_of_grant hs hl hq', applyView_of_grant hs hl2 hq']
          refine ⟨rfl, rfl, rfl, rfl, rfl, rfl, rfl, ?_⟩
          simp [eraseExpiry]
  · have hlbo : lockedByOther s a now₁ = lockedByOther s a now₂ := by
      cases hx : lockedByOther s a now₁ <;> cases hy : lockedByOther s a now₂ <;>
        try rfl
      · have h1 := lockedByOther_iff.mp hy
        rw [← h] at h1
        have h2 := lockedByOther_iff.mpr h1
        rw [hx] at h2
        cases h2
      · have h1 := lockedByOther_iff.mp hx
        rw [h] at h1
        have h2 := lockedByOther_iff.mpr h1
        rw [hy] at h2
        cases h2
    simp only [applyPurchase, hlbo]

theorem C8_witness :
    (applyView stLocked exCfg "viewer_2" 5).status =
      (applyView stLocked exCfg "viewer_2" 10).status ∧
    applyPurchase stLocked exCfg "viewer_2" 5 =
      applyPurchase stLocked exCfg "viewer_2" 10 := by
  have h : lockActive stLocked 5 = lockActive stLocked 10 := by
    norm_num [stLocked, applyView, initDrop, lockActive, exCfg, roundMoney, Rat.floor,
      LOCK_DURATION]
  have hc := C8_clock_relative_determinism stLocked exCfg "viewer_2" 5 10 h
  exact ⟨hc.1.2.1, hc.2⟩

/-- Claim C9: `releaseLock` by the lock holder clears exactly the two lock
fields and touches nothing else (queue, prices, totals, sale facts all
unchanged); for any other caller it returns the input state unchanged.  It
is total, so it never errors. -/
theorem C9_releaseLock_frame (s : DropState) (v : String) :
    (s.activeViewerId = some v →
      releaseLock s v = { s with activeViewerId := none, activeViewExpiresAt := none }) ∧
    (s.activeViewerId ≠ some v → releaseLock s v = s) :=
  ⟨releaseLock_of_holder, releaseLock_of_other⟩

theorem C9_witness :
    releaseLock stLocked "viewer_1" =
      { stLocked with activeViewerId := none, activeViewExpiresAt := none } ∧
    releaseLock stLocked "intruder" = stLocked := by
  have h1 : stLocked.activeViewerId = some "viewer_1" := by
    norm_num [stLocked, applyView, initDrop, lockActive, exCfg, roundMoney, Rat.floor]
  refine ⟨(C9_releaseLock_frame stLocked "viewer_1").1 h1,
    (C9_releaseLock_frame stLocked "intruder").2 ?_⟩
  rw [h1]
  simp

/-- Claim C10, as stated, is false in its final corollary: a config with
`basePrice < minPrice` need not produce an initial price strictly below the
floor, because `initDrop` rounds `basePrice` to whole cents and the rounding
can land exactly on the floor.  For `cfgNearFloor` (`basePrice` = 999.996,
`minPrice` = 1000) the initial price equals the floor. -/
theorem C10_counterexample :
    cfgNearFloor.basePrice < cfgNearFloor.minPrice ∧
    ¬ ((initDrop cfgNearFloor).currentPrice < cfgNearFloor.minPrice) ∧
    (initDrop cfgNearFloor).currentPrice = cfgNearFloor.minPrice := by
  refine ⟨?_, ?_, ?_⟩ <;> norm_num [initDrop, cfgNearFloor, roundMoney, Rat.floor]

/-- Claim C10 (amended): `initDrop` returns exactly the record with the
config's product id, `currentPrice = roundMoney basePrice`, the unsold
flags, no lock, an empty queue and zero totals; the initial price is not
clamped to `minPrice`, so a config whose `basePrice` is quantized to two
decimals and below `minPrice` yields an initial price strictly below the
floor. -/
theorem C10_init_postconditions (c : DropConfig) :
    initDrop c =
      { productId := c.productId, currentPrice := roundMoney c.basePrice
        isSold := false, totalViews := 0, buyerId := none, soldPrice := none
        activeViewerId := none, activeViewExpiresAt := none, queue := []
        totalPlatformRevenue := 0, totalSupplierPlatformRevenue := 0
        totalQomoRevenue := 0 } ∧
    (Quantized c.basePrice → c.basePrice < c.minPrice →
      (initDrop c).currentPrice < c.minPrice) := by
  refine ⟨rfl, fun hq hlt => ?_⟩
  show roundMoney c.basePrice < c.minPrice
  rw [show roundMoney c.basePrice = c.basePrice from hq]
  exact hlt

theorem C10_witness :
    (initDrop cfgLowBase).currentPrice < cfgLowBase.minPrice :=
  (C10_init_postconditions cfgLowBase).2
    (by norm_num [Quantized, roundMoney, Rat.floor, cfgLowBase])
    (by norm_num [cfgLowBase])

end Claims

end Qomo
